import Mathlib

/-!
# Verification of the bootstrap-based blind-SQL-injection timing tester

Shallow embedding of `src/bootstrap.cc` (a sequential bootstrap hypothesis
test over two groups of timing observations).

Modelling conventions:
* C++ `double` (`fp_t`) values are modelled by exact rationals `ℚ`; the
  claims under study concern structure (counts, indices, control flow,
  sign tests), not rounding.  The one place where IEEE special values
  matter — `average` of an empty vector, whose `acc / size` is the IEEE
  quotient `0.0 / 0.0` — is modelled explicitly by the value type `FpVal`
  with a `nan` constructor.
* The global `std::mt19937 g_rng` is modelled as an arbitrary infinite
  stream of raw natural draws `RNG := ℕ → ℕ` together with an explicit
  position that advances by one per draw;
  `std::uniform_int_distribution<size_t>(0, n-1)` applied to a raw draw is
  modelled by reduction `% n`, which captures exactly the contract "a
  value in `[0, n-1]`" (the concrete mt19937 bit-stream is irrelevant to
  every claim, and any index sequence is realised by some stream).
* Fallible operations (out-of-range `std::vector::at` which throws,
  failed `assert` which aborts, undefined behaviour on out-of-range
  `operator[]`) are modelled with `Option`: `none` means the C++ program
  does not return normally from that operation.
-/

/-- Number of samples drawn from the data set (`BOOTSTRAP_SAMPLES`). -/
def BOOTSTRAP_SAMPLES : ℕ := 10000

/-- The alpha parameter in the confidence interval (`SIGNIFICANCE_ALPHA`). -/
def SIGNIFICANCE_ALPHA : ℚ := 1 / 100

/-- Minimum number of samples from each group (`INITAL_SAMPLE_SIZE`,
spelled as in the source). -/
def INITAL_SAMPLE_SIZE : ℕ := 4

/-- Maximum number of samples from each group (`MAX_SAMPLE_SIZE`). -/
def MAX_SAMPLE_SIZE : ℕ := 60

/-- Exact model of an IEEE-754 double: a finite (exact rational) value or
one of the special values produced by division.  Only `average` on an
empty vector can produce a special value in this program. -/
inductive FpVal where
  | num (q : ℚ)
  | nan
  | posInf
  | negInf
deriving DecidableEq

/-- IEEE division of two finite values: a zero divisor yields `nan`
(for `0/0`) or a signed infinity, never a finite number. -/
def fpDiv (a b : ℚ) : FpVal :=
  if b = 0 then
    if a = 0 then .nan else if 0 < a then .posInf else .negInf
  else .num (a / b)

/-- The finite value carried by an `FpVal`, if any. -/
def FpVal.toNum : FpVal → Option ℚ
  | .num q => some q
  | _ => none

/-- `average(values)` from the source: `acc / values.size()` where `acc`
is the running sum.  For an empty vector this is the IEEE quotient
`0.0 / 0.0 = NaN`. -/
def average (values : List ℚ) : FpVal :=
  fpDiv values.sum (values.length : ℚ)

/-- The global PRNG `g_rng`, modelled as an infinite stream of raw draws;
the state threaded through the program is the next unread position. -/
def RNG : Type := ℕ → ℕ

/-- `sample(values, sampleSize)` from the source: `sampleSize` elements
`values[dist(g_rng)]`, each index an independent uniform draw over
`[0, values.size()-1]`, reading raw draws at positions
`pos, pos+1, …`.  An out-of-range element access (only possible when
`values` is empty) is `none` (undefined behaviour in the C++). -/
def sample (values : List ℚ) (sampleSize : ℕ) (g : RNG) (pos : ℕ) :
    Option (List ℚ) :=
  (List.range sampleSize).mapM fun i => values[g (pos + i) % values.length]?

/-- `getInterval(values, alpha)` from the source.  `values.size() - 1` is
`size_t` arithmetic: for a non-empty vector it is `m - 1`; for an empty
vector it wraps to `2^64 - 1` and the subsequent checked `.at` throws —
which coincides with the `none` this model produces for the empty list
(index `0` of `[]`).  A negative real index would convert to a huge
`size_t` and likewise throw, hence the explicit negativity guard. -/
def getInterval (values : List ℚ) (alpha : ℚ) : Option (ℚ × ℚ) :=
  let halfAlpha := alpha / 2
  let lowerIndex : ℚ := ((values.length - 1 : ℕ) : ℚ) * halfAlpha
  let upperIndex : ℚ := ((values.length - 1 : ℕ) : ℚ) * (1 - halfAlpha)
  if ⌊lowerIndex⌋ < 0 ∨ ⌈upperIndex⌉ < 0 then none
  else
    match values[(⌊lowerIndex⌋).toNat]?, values[(⌈upperIndex⌉).toNat]? with
    | some lo, some hi => some (lo, hi)
    | _, _ => none

/-- `std::sort` on the replicate vector.  Any sorting algorithm produces
the same result (the unique `≤`-sorted permutation), so the model uses
insertion sort. -/
def sortValues (l : List ℚ) : List ℚ :=
  List.insertionSort (· ≤ ·) l

/-- One iteration of the bootstrap loop in `rejected`: draw a resample of
`x` (consuming `x.length` raw draws from position `pos`), then one of `y`
(consuming `y.length` draws), and push `average(xSample) -
average(ySample)`.  A non-numeric average (NaN, only from an empty
group) poisons the replicate set and the subsequent sort is undefined
behaviour, modelled as `none`. -/
def replicateStat (x y : List ℚ) (g : RNG) (pos : ℕ) : Option ℚ := do
  let xS ← sample x x.length g pos
  let yS ← sample y y.length g (pos + x.length)
  let ax ← (average xS).toNum
  let ay ← (average yS).toNum
  pure (ax - ay)

/-- The bootstrap loop of `rejected`, unrolled from iteration `b = count`
downward: each iteration consumes `x.length + y.length` raw draws. -/
def bootStrappedAux (x y : List ℚ) (g : RNG) : ℕ → ℕ → Option (List ℚ)
  | _, 0 => some []
  | pos, count + 1 => do
    let v ← replicateStat x y g pos
    let rest ← bootStrappedAux x y g (pos + (x.length + y.length)) count
    pure (v :: rest)

/-- The full replicate set built by `rejected`, in push order. -/
def bootStrapped (x y : List ℚ) (g : RNG) (pos : ℕ) : Option (List ℚ) :=
  bootStrappedAux x y g pos BOOTSTRAP_SAMPLES

/-- The tail of `rejected` after the replicate set is built: sort it,
extract the confidence interval at `SIGNIFICANCE_ALPHA`, and report
whether the interval excludes zero. -/
def verdict (reps : List ℚ) : Option Bool :=
  (getInterval (sortValues reps) SIGNIFICANCE_ALPHA).map fun bounds =>
    decide (bounds.1 > 0 ∨ bounds.2 < 0)

/-- `rejected(x, y)` from the source: build `BOOTSTRAP_SAMPLES` replicates
of the mean difference, sort, take the percentile interval, and reject
iff it excludes zero.  `pos` is the current position in the raw draw
stream of `g_rng`. -/
def rejected (x y : List ℚ) (g : RNG) (pos : ℕ) : Option Bool :=
  (bootStrapped x y g pos).bind verdict

/-- `readSamples(input, n)` from the source: assert
`input.size() >= n && n != 0`, then pop the first `n` elements off the
front of the deque.  Returns the removed prefix and the remaining
backlog; `none` models the failed assert (abort). -/
def readSamples (input : List ℚ) (n : ℕ) : Option (List ℚ × List ℚ) :=
  if n ≤ input.length ∧ n ≠ 0 then some (input.take n, input.drop n)
  else none

/-- The state machine outcome of a full run of `main`, together with the
exit behaviour: `rejectedExit` prints the injection diagnostic and
returns 1, `exhausted` prints the no-evidence diagnostic and returns 0,
and the remaining constructors are the distinct abort points (failed
asserts / undefined behaviour), on which the process terminates
abnormally. -/
inductive Outcome where
  | rejectedExit
  | exhausted
  | precondFail
  | initReadFail
  | loopReadFail
  | rngFail
deriving DecidableEq

/-- Final state of a run of `main`: the outcome together with the two
groups `x` and `y` as they stood when the run ended. -/
structure RunResult where
  outcome : Outcome
  x : List ℚ
  y : List ℚ
deriving DecidableEq

/-- Raw draws consumed from `g_rng` by one call to `rejected`:
`BOOTSTRAP_SAMPLES` iterations of `x.length + y.length` draws each. -/
def drawsPerTest (x y : List ℚ) : ℕ := BOOTSTRAP_SAMPLES * (x.length + y.length)

/-- The sampling loop of `main` (`while (current <= MAX_SAMPLE_SIZE)`),
with `fuel = MAX_SAMPLE_SIZE - current + 1` remaining iterations.  Each
iteration tests the current groups and, if the test does not reject,
appends one observation pulled from each backlog.  Mirrors the source
order: the reference pull happens (extending `x`) before the offset
pull is attempted. -/
def driverLoop (g : RNG) : ℕ → ℕ → List ℚ → List ℚ → List ℚ → List ℚ → RunResult
  | 0, _, x, y, _, _ => ⟨.exhausted, x, y⟩
  | fuel + 1, pos, x, y, refB, candB =>
    match rejected x y g pos with
    | none => ⟨.rngFail, x, y⟩
    | some true => ⟨.rejectedExit, x, y⟩
    | some false =>
      match readSamples refB 1 with
      | none => ⟨.loopReadFail, x, y⟩
      | some (rx, refB') =>
        match readSamples candB 1 with
        | none => ⟨.loopReadFail, x ++ rx, y⟩
        | some (ry, candB') =>
          driverLoop g fuel (pos + drawsPerTest x y) (x ++ rx) (y ++ ry) refB' candB'

/-- The precondition assert in `main`:
`assert(samples.first.size() >= INITAL_SAMPLE_SIZE && samples.first.size()
>= MAX_SAMPLE_SIZE)`.  As in the source, it reads only the reference
(first) backlog. -/
def mainPrecond (reference : List ℚ) : Bool :=
  decide (INITAL_SAMPLE_SIZE ≤ reference.length) &&
    decide (MAX_SAMPLE_SIZE ≤ reference.length)

/-- `main` from the source, given the parsed backlogs (`samples.first`,
`samples.second`) and the seeded raw-draw stream: check the
precondition assert, pull the initial batch of `INITAL_SAMPLE_SIZE`
observations from each backlog, then run the sampling loop, whose
iteration count `MAX_SAMPLE_SIZE - INITAL_SAMPLE_SIZE + 1` matches
`current = INITAL_SAMPLE_SIZE; while (current <= MAX_SAMPLE_SIZE)`. -/
def mainRun (g : RNG) (reference offset : List ℚ) : RunResult :=
  if mainPrecond reference then
    match readSamples reference INITAL_SAMPLE_SIZE with
    | none => ⟨.initReadFail, [], []⟩
    | some (x, reference') =>
      match readSamples offset INITAL_SAMPLE_SIZE with
      | none => ⟨.initReadFail, x, []⟩
      | some (y, offset') =>
        driverLoop g (MAX_SAMPLE_SIZE - INITAL_SAMPLE_SIZE + 1) 0 x y reference' offset'
  else ⟨.precondFail, [], []⟩

/-- The process exit status for each outcome; aborts (failed asserts,
undefined behaviour) terminate abnormally and have no ordinary exit
status. -/
def exitCode : Outcome → Option ℕ
  | .rejectedExit => some 1
  | .exhausted => some 0
  | _ => none

/-- The all-zero raw-draw stream, a concrete `RNG` used for witnesses. -/
def gZero : RNG := fun _ => 0

/-- A concrete raw-draw stream: on the four draws of each bootstrap
iteration over two two-element groups it selects index 1 for the group
sampled first and index 0 for the group sampled second. -/
def gAlt : RNG := fun p => (p / 2 + 1) % 2

/-! ## Helper lemmas -/

theorem mapM_option_eq_replicate {α : Type} (f : α → Option ℚ) (c : ℚ) :
    ∀ l : List α, (∀ a ∈ l, f a = some c) →
      l.mapM f = some (List.replicate l.length c)
  | [], _ => rfl
  | a :: l, h => by
    have ha : f a = some c := h a (by simp)
    have hl := mapM_option_eq_replicate f c l fun b hb => h b (by simp [hb])
    rw [List.mapM_cons, ha, hl]
    simp [List.replicate_succ]

theorem mapM_option_exists {α : Type} (f : α → Option ℚ) :
    ∀ l : List α, (∀ a ∈ l, (f a).isSome) →
      ∃ r : List ℚ, l.mapM f = some r ∧ r.length = l.length ∧
        ∀ b ∈ r, ∃ a ∈ l, f a = some b
  | [], _ => ⟨[], rfl, rfl, by simp⟩
  | a :: l, h => by
    obtain ⟨b, hb⟩ := Option.isSome_iff_exists.mp (h a (by simp))
    obtain ⟨r, hr, hlen, hmem⟩ :=
      mapM_option_exists f l fun a' ha' => h a' (by simp [ha'])
    refine ⟨b :: r, ?_, by simp [hlen], ?_⟩
    · rw [List.mapM_cons, hb, hr]
      rfl
    · intro b' hb'
      rcases List.mem_cons.mp hb' with rfl | hb'
      · exact ⟨a, by simp, hb⟩
      · obtain ⟨a', ha', hfa⟩ := hmem b' hb'
        exact ⟨a', by simp [ha'], hfa⟩

theorem sample_replicate (n k : ℕ) (c : ℚ) (g : RNG) (pos : ℕ) (hn : 0 < n) :
    sample (List.replicate n c) k g pos = some (List.replicate k c) := by
  unfold sample
  have h := mapM_option_eq_replicate
    (fun i => (List.replicate n c)[g (pos + i) % (List.replicate n c).length]?) c
    (List.range k) ?_
  · simpa using h
  · intro i _
    have hlt : g (pos + i) % n < n := Nat.mod_lt _ hn
    simp [hlt]

theorem average_eq_num (vs : List ℚ) (h : vs ≠ []) :
    average vs = .num (vs.sum / vs.length) := by
  have hlen : vs.length ≠ 0 := Nat.pos_iff_ne_zero.mp (List.length_pos.mpr h)
  have : ((vs.length : ℚ)) ≠ 0 := by exact_mod_cast hlen
  simp [average, fpDiv, this]

theorem average_replicate (k : ℕ) (c : ℚ) (hk : 0 < k) :
    average (List.replicate k c) = .num c := by
  have hne : List.replicate k c ≠ [] := List.length_pos.mp (by simpa using hk)
  rw [average_eq_num _ hne]
  have hk' : ((k : ℚ)) ≠ 0 := by exact_mod_cast hk.ne'
  simp only [List.sum_replicate, List.length_replicate, nsmul_eq_mul]
  rw [mul_div_cancel_left₀ _ hk']

theorem replicateStat_replicate (n m : ℕ) (c d : ℚ) (g : RNG) (pos : ℕ)
    (hn : 0 < n) (hm : 0 < m) :
    replicateStat (List.replicate n c) (List.replicate m d) g pos = some (c - d) := by
  simp [replicateStat, sample_replicate _ _ _ _ _ hn, sample_replicate _ _ _ _ _ hm,
    average_replicate _ _ hn, average_replicate _ _ hm, FpVal.toNum]

theorem bootStrappedAux_const (x y : List ℚ) (g : RNG) (c : ℚ) :
    ∀ count pos,
      (∀ j, j < count → replicateStat x y g (pos + j * (x.length + y.length)) = some c) →
      bootStrappedAux x y g pos count = some (List.replicate count c)
  | 0, _, _ => rfl
  | count + 1, pos, h => by
    have h0 : replicateStat x y g pos = some c := by simpa using h 0 (by omega)
    have hrest := bootStrappedAux_const x y g c count (pos + (x.length + y.length)) ?_
    · simp [bootStrappedAux, h0, hrest, List.replicate_succ]
    · intro j hj
      have := h (j + 1) (by omega)
      have harith : pos + (j + 1) * (x.length + y.length)
          = pos + (x.length + y.length) + j * (x.length + y.length) := by ring
      rwa [harith] at this

theorem sorted_replicate_le (k : ℕ) (c : ℚ) :
    List.Sorted (· ≤ ·) (List.replicate k c) := by
  rw [List.Sorted, List.pairwise_replicate]
  exact Or.inr le_rfl

theorem sortValues_replicate (k : ℕ) (c : ℚ) :
    sortValues (List.replicate k c) = List.replicate k c :=
  List.eq_of_perm_of_sorted (List.perm_insertionSort _ _)
    (List.sorted_insertionSort _ _) (sorted_replicate_le k c)

theorem getInterval_eq_some (values : List ℚ) (alpha : ℚ)
    (hm : 1 ≤ values.length) (h0 : 0 ≤ alpha) (h1 : alpha ≤ 1) :
    getInterval values alpha =
      some (values.getD (⌊((values.length - 1 : ℕ) : ℚ) * (alpha / 2)⌋).toNat 0,
            values.getD (⌈((values.length - 1 : ℕ) : ℚ) * (1 - alpha / 2)⌉).toNat 0) := by
  have hq0 : (0 : ℚ) ≤ ((values.length - 1 : ℕ) : ℚ) := Nat.cast_nonneg _
  have hlow0 : (0 : ℚ) ≤ ((values.length - 1 : ℕ) : ℚ) * (alpha / 2) :=
    mul_nonneg hq0 (by linarith)
  have hup0 : (0 : ℚ) ≤ ((values.length - 1 : ℕ) : ℚ) * (1 - alpha / 2) :=
    mul_nonneg hq0 (by linarith)
  have hfl0 : 0 ≤ ⌊((values.length - 1 : ℕ) : ℚ) * (alpha / 2)⌋ :=
    Int.floor_nonneg.mpr hlow0
  have hce0 : 0 ≤ ⌈((values.length - 1 : ℕ) : ℚ) * (1 - alpha / 2)⌉ :=
    Int.ceil_nonneg hup0
  have hfl_le : ⌊((values.length - 1 : ℕ) : ℚ) * (alpha / 2)⌋ ≤ (values.length - 1 : ℕ) := by
    have : ((values.length - 1 : ℕ) : ℚ) * (alpha / 2) ≤ ((values.length - 1 : ℕ) : ℚ) :=
      mul_le_of_le_one_right hq0 (by linarith)
    calc ⌊((values.length - 1 : ℕ) : ℚ) * (alpha / 2)⌋
        ≤ ⌊((values.length - 1 : ℕ) : ℚ)⌋ := Int.floor_le_floor this
      _ = (values.length - 1 : ℕ) := Int.floor_natCast _
  have hce_le : ⌈((values.length - 1 : ℕ) : ℚ) * (1 - alpha / 2)⌉ ≤ (values.length - 1 : ℕ) := by
    apply Int.ceil_le.mpr
    push_cast
    exact mul_le_of_le_one_right hq0 (by linarith)
  have hflNat : (⌊((values.length - 1 : ℕ) : ℚ) * (alpha / 2)⌋).toNat < values.length := by
    omega
  have hceNat : (⌈((values.length - 1 : ℕ) : ℚ) * (1 - alpha / 2)⌉).toNat < values.length := by
    omega
  unfold getInterval
  rw [if_neg (by omega)]
  rw [List.getElem?_eq_getElem hflNat, List.getElem?_eq_getElem hceNat]
  simp [List.getElem?_eq_getElem hflNat, List.getElem?_eq_getElem hceNat]

theorem length_sub_one_cast_10000 (l : List ℚ) (h : l.length = BOOTSTRAP_SAMPLES) :
    ((l.length - 1 : ℕ) : ℚ) = 9999 := by
  rw [h]; rfl

theorem floor_low_10000 : (⌊(9999 : ℚ) * (SIGNIFICANCE_ALPHA / 2)⌋).toNat = 49 := by
  rw [SIGNIFICANCE_ALPHA]
  rw [show (9999 : ℚ) * (1 / 100 / 2) = 9999 / 200 by norm_num]
  rw [show (⌊(9999 : ℚ) / 200⌋) = 49 by
    rw [Int.floor_eq_iff]
    norm_num]
  rfl

theorem ceil_high_10000 : (⌈(9999 : ℚ) * (1 - SIGNIFICANCE_ALPHA / 2)⌉).toNat = 9950 := by
  rw [SIGNIFICANCE_ALPHA]
  rw [show (9999 : ℚ) * (1 - 1 / 100 / 2) = 1989801 / 200 by norm_num]
  rw [show (⌈(1989801 : ℚ) / 200⌉) = 9950 by
    rw [Int.ceil_eq_iff]
    norm_num]
  rfl

theorem getInterval_len_10000 (l : List ℚ) (h : l.length = BOOTSTRAP_SAMPLES) :
    getInterval l SIGNIFICANCE_ALPHA = some (l.getD 49 0, l.getD 9950 0) := by
  rw [getInterval_eq_some l SIGNIFICANCE_ALPHA (by rw [h]; norm_num [BOOTSTRAP_SAMPLES])
    (by norm_num [SIGNIFICANCE_ALPHA]) (by norm_num [SIGNIFICANCE_ALPHA])]
  rw [length_sub_one_cast_10000 l h, floor_low_10000, ceil_high_10000]

theorem getD_replicate_of_lt (k i : ℕ) (c : ℚ) (h : i < k) :
    (List.replicate k c).getD i 0 = c := by
  rw [List.getD_eq_getElem?_getD, List.getElem?_replicate_of_lt h]
  rfl

theorem verdict_replicate (c : ℚ) :
    verdict (List.replicate BOOTSTRAP_SAMPLES c) = some (decide (c > 0 ∨ c < 0)) := by
  unfold verdict
  rw [sortValues_replicate, getInterval_len_10000 _ (by simp)]
  rw [getD_replicate_of_lt _ _ _ (by norm_num [BOOTSTRAP_SAMPLES]),
    getD_replicate_of_lt _ _ _ (by norm_num [BOOTSTRAP_SAMPLES])]
  rfl

theorem bootStrapped_replicate (n m : ℕ) (c d : ℚ) (g : RNG) (pos : ℕ)
    (hn : 0 < n) (hm : 0 < m) :
    bootStrapped (List.replicate n c) (List.replicate m d) g pos
      = some (List.replicate BOOTSTRAP_SAMPLES (c - d)) := by
  unfold bootStrapped
  exact bootStrappedAux_const _ _ g (c - d) BOOTSTRAP_SAMPLES pos fun j _ =>
    replicateStat_replicate n m c d g _ hn hm

theorem rejected_replicate (n m : ℕ) (c d : ℚ) (g : RNG) (pos : ℕ)
    (hn : 0 < n) (hm : 0 < m) :
    rejected (List.replicate n c) (List.replicate m d) g pos
      = some (decide (c - d > 0 ∨ c - d < 0)) := by
  unfold rejected
  rw [bootStrapped_replicate n m c d g pos hn hm, Option.some_bind,
    verdict_replicate (c - d)]

theorem rejected_replicate_self (n m : ℕ) (c : ℚ) (g : RNG) (pos : ℕ)
    (hn : 0 < n) (hm : 0 < m) :
    rejected (List.replicate n c) (List.replicate m c) g pos = some false := by
  rw [rejected_replicate n m c c g pos hn hm]
  simp

theorem readSamples_replicate (a k : ℕ) (c : ℚ) (hk : k ≠ 0) (h : k ≤ a) :
    readSamples (List.replicate a c) k
      = some (List.replicate k c, List.replicate (a - k) c) := by
  rw [readSamples, if_pos (by simp [hk, h])]
  rw [List.take_replicate, List.drop_replicate, Nat.min_eq_left h]

theorem driverLoop_replicate (g : RNG) (c : ℚ) :
    ∀ fuel n a b pos, 1 ≤ n →
      driverLoop g fuel pos (List.replicate n c) (List.replicate n c)
          (List.replicate a c) (List.replicate b c) =
        if fuel ≤ min a b then
          ⟨.exhausted, List.replicate (n + fuel) c, List.replicate (n + fuel) c⟩
        else if a ≤ b then
          ⟨.loopReadFail, List.replicate (n + a) c, List.replicate (n + a) c⟩
        else
          ⟨.loopReadFail, List.replicate (n + b + 1) c, List.replicate (n + b) c⟩
  | 0, n, a, b, pos, hn => by
    rw [if_pos (by omega)]
    simp [driverLoop]
  | fuel + 1, n, a, b, pos, hn => by
    by_cases ha : 1 ≤ a
    · by_cases hb : 1 ≤ b
      · have hrec := driverLoop_replicate g c fuel (n + 1) (a - 1) (b - 1)
          (pos + drawsPerTest (List.replicate n c) (List.replicate n c)) (by omega)
        rw [List.replicate_succ'] at hrec
        simp only [driverLoop, rejected_replicate_self n n c g pos (by omega) (by omega),
          readSamples_replicate a 1 c (by omega) ha,
          readSamples_replicate b 1 c (by omega) hb]
        rw [show List.replicate 1 c = [c] from rfl, hrec]
        by_cases hf : fuel + 1 ≤ min a b
        · rw [if_pos (by omega), if_pos hf]
          rw [show n + 1 + fuel = n + (fuel + 1) by omega]
        · rw [if_neg (by omega), if_neg hf]
          by_cases hab : a ≤ b
          · rw [if_pos (by omega), if_pos hab]
            rw [show n + 1 + (a - 1) = n + a by omega]
          · rw [if_neg (by omega), if_neg hab]
            rw [show n + 1 + (b - 1) + 1 = n + b + 1 by omega,
              show n + 1 + (b - 1) = n + b by omega]
      · -- the offset backlog is empty: the reference pull succeeds and
        -- extends x, then the offset pull hits the failed assert
        have hb0 : b = 0 := by omega
        subst hb0
        simp only [driverLoop, rejected_replicate_self n n c g pos (by omega) (by omega),
          readSamples_replicate a 1 c one_ne_zero ha,
          show readSamples (List.replicate 0 c) 1 = none by simp [readSamples]]
        rw [if_neg (by omega), if_neg (by omega)]
        rw [List.append_replicate_replicate]
        rw [show n + 0 + 1 = n + 1 by omega, show n + 0 = n by omega]
    · -- the reference backlog is empty: the reference pull hits the
      -- failed assert before x is extended
      have ha0 : a = 0 := by omega
      subst ha0
      simp only [driverLoop, rejected_replicate_self n n c g pos (by omega) (by omega),
        show readSamples (List.replicate 0 c) 1 = none by simp [readSamples]]
      rw [if_neg (by omega), if_pos (by omega)]
      rw [show n + 0 = n by omega]

theorem sortValues_map_neg (l : List ℚ) :
    sortValues (l.map fun a => -a) = ((sortValues l).map fun a => -a).reverse := by
  refine @List.eq_of_perm_of_sorted ℚ (· ≤ ·) _ _ _
    ((List.perm_insertionSort _ _).trans
      (((List.reverse_perm _).trans ((List.perm_insertionSort _ l).map _)).symm))
    (List.sorted_insertionSort _ _) ?_
  rw [List.Sorted, List.pairwise_reverse, List.pairwise_map]
  exact (List.sorted_insertionSort (· ≤ ·) l).imp fun h => neg_le_neg h

theorem getD_reverse_map_neg (s : List ℚ) (i : ℕ) (h : i < s.length) :
    ((s.map fun a => -a).reverse).getD i 0 = -(s.getD (s.length - 1 - i) 0) := by
  rw [List.getD_eq_getElem?_getD, List.getD_eq_getElem?_getD]
  rw [List.getElem?_reverse (by simpa using h), List.length_map, List.getElem?_map]
  rw [List.getElem?_eq_getElem (show s.length - 1 - i < s.length by omega)]
  rfl


theorem sample_pair_alt_first (u v : ℚ) (j : ℕ) :
    sample [u, v] 2 gAlt (4 * j) = some [v, v] := by
  have h0 : gAlt (4 * j + 0) % 2 = 1 := by unfold gAlt; omega
  have h1 : gAlt (4 * j + 1) % 2 = 1 := by unfold gAlt; omega
  unfold sample
  rw [show List.range 2 = [0, 1] from rfl, List.mapM_cons, List.mapM_cons, List.mapM_nil]
  rw [show [u, v].length = 2 from rfl, h0, h1]
  rfl

theorem sample_pair_alt_second (u v : ℚ) (j : ℕ) :
    sample [u, v] 2 gAlt (4 * j + 2) = some [u, u] := by
  have h0 : gAlt (4 * j + 2 + 0) % 2 = 0 := by unfold gAlt; omega
  have h1 : gAlt (4 * j + 2 + 1) % 2 = 0 := by unfold gAlt; omega
  unfold sample
  rw [show List.range 2 = [0, 1] from rfl, List.mapM_cons, List.mapM_cons, List.mapM_nil]
  rw [show [u, v].length = 2 from rfl, h0, h1]
  rfl

theorem average_pair (u : ℚ) : average [u, u] = .num u := by
  rw [average_eq_num _ (by simp)]
  rw [show ([u, u].sum) = u + u by simp, show (([u, u].length : ℚ)) = 2 by rfl]
  rw [FpVal.num.injEq]
  ring

theorem replicateStat_alt (x1 x2 y1 y2 : ℚ) (j : ℕ) :
    replicateStat [x1, x2] [y1, y2] gAlt (4 * j) = some (x2 - y1) := by
  unfold replicateStat
  rw [show [x1, x2].length = 2 from rfl, show [y1, y2].length = 2 from rfl]
  rw [sample_pair_alt_first x1 x2 j, sample_pair_alt_second y1 y2 j]
  simp [average_pair, FpVal.toNum]

theorem bootStrapped_alt (x1 x2 y1 y2 : ℚ) :
    bootStrapped [x1, x2] [y1, y2] gAlt 0
      = some (List.replicate BOOTSTRAP_SAMPLES (x2 - y1)) := by
  unfold bootStrapped
  apply bootStrappedAux_const
  intro j _
  rw [show 0 + j * ([x1, x2].length + [y1, y2].length) = 4 * j by
    rw [show [x1, x2].length = 2 from rfl, show [y1, y2].length = 2 from rfl]
    omega]
  exact replicateStat_alt x1 x2 y1 y2 j

theorem rejected_alt (x1 x2 y1 y2 : ℚ) :
    rejected [x1, x2] [y1, y2] gAlt 0
      = some (decide (x2 - y1 > 0 ∨ x2 - y1 < 0)) := by
  unfold rejected
  rw [bootStrapped_alt x1 x2 y1 y2, Option.some_bind, verdict_replicate]

theorem mainRun_replicate (g : RNG) (c : ℚ) (N M : ℕ) (hN : 60 ≤ N) (hM : 4 ≤ M) :
    mainRun g (List.replicate N c) (List.replicate M c) =
      if 57 ≤ min (N - 4) (M - 4) then
        ⟨.exhausted, List.replicate 61 c, List.replicate 61 c⟩
      else if N - 4 ≤ M - 4 then
        ⟨.loopReadFail, List.replicate N c, List.replicate N c⟩
      else
        ⟨.loopReadFail, List.replicate (M + 1) c, List.replicate M c⟩ := by
  have hpre : mainPrecond (List.replicate N c) = true := by
    simp only [mainPrecond, List.length_replicate, INITAL_SAMPLE_SIZE, MAX_SAMPLE_SIZE]
    simp only [Bool.and_eq_true, decide_eq_true_eq]
    omega
  rw [mainRun, if_pos hpre]
  simp only [INITAL_SAMPLE_SIZE, MAX_SAMPLE_SIZE]
  rw [readSamples_replicate N 4 c (by omega) (by omega),
    readSamples_replicate M 4 c (by omega) hM]
  rw [show (60 : ℕ) - 4 + 1 = 57 from rfl]
  dsimp only
  rw [driverLoop_replicate g c 57 4 (N - 4) (M - 4) 0 (by omega)]
  by_cases h1 : 57 ≤ min (N - 4) (M - 4)
  · rw [if_pos h1, if_pos h1]
  · rw [if_neg h1, if_neg h1]
    by_cases h2 : N - 4 ≤ M - 4
    · rw [if_pos h2, if_pos h2, show 4 + (N - 4) = N by omega]
    · rw [if_neg h2, if_neg h2, show 4 + (M - 4) + 1 = M + 1 by omega,
        show 4 + (M - 4) = M by omega]

/-! ## Claims -/

/-- C4: invoking the mean function on an empty group performs the IEEE
division `0.0 / 0.0`, whose result is the non-numeric failure value NaN —
it never returns a numeric value for an empty input — and for every
non-empty group it returns the sum of the observations divided by their
count. -/
theorem average_empty_nan_nonempty_mean :
    (average [] = .nan ∧ ∀ q : ℚ, average [] ≠ .num q) ∧
      ∀ vs : List ℚ, vs ≠ [] → average vs = .num (vs.sum / vs.length) :=
  ⟨⟨by simp [average, fpDiv], fun q => by simp [average, fpDiv]⟩,
    fun vs h => average_eq_num vs h⟩

/-- Witness for C4: `average` at the concrete non-empty group `[1, 2, 3]`
evaluates to `2`, and on `[]` to NaN. -/
theorem average_empty_nan_nonempty_mean_witness :
    (([1, 2, 3] : List ℚ) ≠ []) ∧ average [1, 2, 3] = .num 2 ∧ average [] = .nan := by
  have h := average_empty_nan_nonempty_mean.2 [1, 2, 3] (by simp)
  refine ⟨by simp, ?_, average_empty_nan_nonempty_mean.1.1⟩
  rw [h]
  norm_num

/-- C5: the Hypothesis Tester returns "rejected" (`some true`) iff the
confidence interval obtained from the sorted replicate set at
`SIGNIFICANCE_ALPHA` does not contain zero (`lowerBound > 0` or
`upperBound < 0`), and "not rejected" (`some false`) otherwise. -/
theorem rejected_iff_interval_excludes_zero (x y : List ℚ) (g : RNG) (pos : ℕ)
    (reps : List ℚ) (bounds : ℚ × ℚ)
    (hreps : bootStrapped x y g pos = some reps)
    (hbounds : getInterval (sortValues reps) SIGNIFICANCE_ALPHA = some bounds) :
    (rejected x y g pos = some true ↔ (bounds.1 > 0 ∨ bounds.2 < 0)) ∧
      (rejected x y g pos = some false ↔ ¬(bounds.1 > 0 ∨ bounds.2 < 0)) := by
  unfold rejected verdict
  rw [hreps, Option.some_bind, hbounds]
  constructor
  · simp
  · simp

/-- Witness for C5: two singleton groups `[1]`, `[1]` under the all-zero
stream give the all-zero replicate set, interval `(0, 0)`, and verdict
"not rejected". -/
theorem rejected_iff_interval_excludes_zero_witness :
    (bootStrapped [1] [1] gZero 0 = some (List.replicate BOOTSTRAP_SAMPLES 0) ∧
      getInterval (sortValues (List.replicate BOOTSTRAP_SAMPLES 0)) SIGNIFICANCE_ALPHA
        = some (0, 0)) ∧
      (rejected [1] [1] gZero 0 = some true ↔ ((0 : ℚ) > 0 ∨ (0 : ℚ) < 0)) := by
  have h1 : bootStrapped [1] [1] gZero 0 = some (List.replicate BOOTSTRAP_SAMPLES 0) := by
    have h := bootStrapped_replicate 1 1 1 1 gZero 0 one_pos one_pos
    simpa using h
  have h2 : getInterval (sortValues (List.replicate BOOTSTRAP_SAMPLES 0)) SIGNIFICANCE_ALPHA
      = some (0, 0) := by
    rw [sortValues_replicate, getInterval_len_10000 _ (by rw [List.length_replicate])]
    rw [getD_replicate_of_lt _ _ _ (by norm_num [BOOTSTRAP_SAMPLES]),
      getD_replicate_of_lt _ _ _ (by norm_num [BOOTSTRAP_SAMPLES])]
  exact ⟨⟨h1, h2⟩, (rejected_iff_interval_excludes_zero [1] [1] gZero 0 _ _ h1 h2).1⟩

theorem floor_low_int : ⌊(9999 : ℚ) * (SIGNIFICANCE_ALPHA / 2)⌋ = 49 := by
  rw [SIGNIFICANCE_ALPHA]
  rw [show (9999 : ℚ) * (1 / 100 / 2) = 9999 / 200 by norm_num]
  rw [Int.floor_eq_iff]
  norm_num

theorem ceil_high_int : ⌈(9999 : ℚ) * (1 - SIGNIFICANCE_ALPHA / 2)⌉ = 9950 := by
  rw [SIGNIFICANCE_ALPHA]
  rw [show (9999 : ℚ) * (1 - 1 / 100 / 2) = 1989801 / 200 by norm_num]
  rw [Int.ceil_eq_iff]
  norm_num

/-- C6: for every sorted replicate set of size `m ≥ 1` and significance
level `alpha` in `[0, 1]`, `getInterval` computes
`lowerIndex = (m-1)·(alpha/2)` and `upperIndex = (m-1)·(1-alpha/2)` and
returns the pair of elements at positions `floor(lowerIndex)` and
`ceil(upperIndex)`; in particular, for `m = 101` and `alpha = 1/10` those
positions are `5` and `95`. -/
theorem getInterval_percentile_positions (values : List ℚ) (alpha : ℚ)
    (hm : 1 ≤ values.length) (h0 : 0 ≤ alpha) (h1 : alpha ≤ 1) :
    getInterval values alpha =
      some (values.getD (⌊((values.length - 1 : ℕ) : ℚ) * (alpha / 2)⌋).toNat 0,
            values.getD (⌈((values.length - 1 : ℕ) : ℚ) * (1 - alpha / 2)⌉).toNat 0) ∧
      (values.length = 101 → alpha = 1 / 10 →
        (⌊((values.length - 1 : ℕ) : ℚ) * (alpha / 2)⌋).toNat = 5 ∧
        (⌈((values.length - 1 : ℕ) : ℚ) * (1 - alpha / 2)⌉).toNat = 95) := by
  refine ⟨getInterval_eq_some values alpha hm h0 h1, fun hlen halpha => ?_⟩
  subst halpha
  rw [hlen]
  constructor
  · rw [show (⌊((101 - 1 : ℕ) : ℚ) * (1 / 10 / 2)⌋) = 5 by norm_num]
    rfl
  · rw [show (⌈((101 - 1 : ℕ) : ℚ) * (1 - 1 / 10 / 2)⌉) = 95 by norm_num]
    rfl

/-- Witness for C6: on the concrete 101-element replicate set
`replicate 101 7` with `alpha = 1/10` the interval is the pair of the
elements at positions 5 and 95. -/
theorem getInterval_percentile_positions_witness :
    (1 ≤ (List.replicate 101 (7 : ℚ)).length) ∧
      getInterval (List.replicate 101 (7 : ℚ)) (1 / 10) = some (7, 7) := by
  have h := (getInterval_percentile_positions (List.replicate 101 (7 : ℚ)) (1 / 10)
    (by rw [List.length_replicate]; omega) (by norm_num) (by norm_num)).1
  simp only [List.length_replicate] at h
  rw [show (⌊((101 - 1 : ℕ) : ℚ) * (1 / 10 / 2)⌋) = 5 by norm_num] at h
  rw [show (⌈((101 - 1 : ℕ) : ℚ) * (1 - 1 / 10 / 2)⌉) = 95 by norm_num] at h
  rw [getD_replicate_of_lt _ _ _ (by norm_num), getD_replicate_of_lt _ _ _ (by norm_num)] at h
  exact ⟨by rw [List.length_replicate]; omega, h⟩

/-- C7: for a replicate set of size `m = BOOTSTRAP_SAMPLES = 10000` at
`alpha = SIGNIFICANCE_ALPHA = 1/100`, both element accesses of
`getInterval` are in bounds — `floor(lowerIndex) = 49 ≥ 0` and
`ceil(upperIndex) = 9950 < m` — so interval extraction always returns a
pair. -/
theorem getInterval_budget_inbounds (values : List ℚ)
    (h : values.length = BOOTSTRAP_SAMPLES) :
    0 ≤ ⌊((values.length - 1 : ℕ) : ℚ) * (SIGNIFICANCE_ALPHA / 2)⌋ ∧
      ⌈((values.length - 1 : ℕ) : ℚ) * (1 - SIGNIFICANCE_ALPHA / 2)⌉ < (BOOTSTRAP_SAMPLES : ℤ) ∧
      ∃ p, getInterval values SIGNIFICANCE_ALPHA = some p := by
  refine ⟨?_, ?_, ?_⟩
  · rw [length_sub_one_cast_10000 values h, floor_low_int]
    omega
  · rw [length_sub_one_cast_10000 values h, ceil_high_int]
    norm_num [BOOTSTRAP_SAMPLES]
  · exact ⟨_, getInterval_eq_some values SIGNIFICANCE_ALPHA
      (by rw [h]; norm_num [BOOTSTRAP_SAMPLES])
      (by norm_num [SIGNIFICANCE_ALPHA]) (by norm_num [SIGNIFICANCE_ALPHA])⟩

/-- Witness for C7: `getInterval` succeeds on the concrete replicate set
`replicate 10000 0`. -/
theorem getInterval_budget_inbounds_witness :
    (List.replicate BOOTSTRAP_SAMPLES (0 : ℚ)).length = BOOTSTRAP_SAMPLES ∧
      ∃ p, getInterval (List.replicate BOOTSTRAP_SAMPLES (0 : ℚ)) SIGNIFICANCE_ALPHA
        = some p :=
  ⟨by rw [List.length_replicate],
    (getInterval_budget_inbounds _ (by rw [List.length_replicate])).2.2⟩

/-- C8: for every non-empty group `v` and every requested size `n > 0`,
the Resampler succeeds and returns exactly `n` elements, each of which is
a value present in `v`. -/
theorem sample_size_and_membership (v : List ℚ) (n : ℕ) (g : RNG) (pos : ℕ)
    (hv : v ≠ []) (hn : 0 < n) :
    ∃ l, sample v n g pos = some l ∧ l.length = n ∧ ∀ a ∈ l, a ∈ v := by
  have hlen : 0 < v.length := List.length_pos.mpr hv
  unfold sample
  have hall : ∀ i ∈ List.range n, ((fun i => v[g (pos + i) % v.length]?) i).isSome := by
    intro i _
    have hi : g (pos + i) % v.length < v.length := Nat.mod_lt _ hlen
    simp [hi]
  obtain ⟨r, hr, hrlen, hmem⟩ := mapM_option_exists _ (List.range n) hall
  refine ⟨r, hr, by simpa using hrlen, fun a ha => ?_⟩
  obtain ⟨i, _, hfi⟩ := hmem a ha
  exact List.getElem?_mem hfi

/-- Witness for C8: resampling 3 elements from the singleton group `[5]`
yields a 3-element list of values from `[5]`. -/
theorem sample_size_and_membership_witness :
    (([5] : List ℚ) ≠ [] ∧ 0 < 3) ∧
      ∃ l, sample [5] 3 gZero 0 = some l ∧ l.length = 3 ∧ ∀ a ∈ l, a ∈ ([5] : List ℚ) :=
  ⟨⟨by simp, by norm_num⟩,
    sample_size_and_membership [5] 3 gZero 0 (by simp) (by norm_num)⟩

/-- C9 counterexample: the Hypothesis Tester's verdict is NOT invariant
under swapping the two groups for every initial Random Source state.
With groups `x = [0, 100]`, `y = [0, 0]` and the stream `gAlt` (which
feeds index 1 to whichever group is sampled first in each bootstrap
iteration and index 0 to the one sampled second), `rejected(x, y)`
rejects while `rejected(y, x)` does not: the swap reassigns the raw
draws between the groups, so the replicate set is not merely
sign-flipped. -/
theorem rejected_swap_dependent :
    rejected [0, 100] [0, 0] gAlt 0 = some true ∧
      rejected [0, 0] [0, 100] gAlt 0 = some false := by
  constructor
  · rw [rejected_alt 0 100 0 0]
    norm_num
  · rw [rejected_alt 0 0 0 100]
    norm_num

/-- C9 (amended): the rejection predicate itself is invariant under
negating every replicate — for a replicate set of the program's size,
the verdict computed from the pointwise-negated set equals the verdict
computed from the original set.  (Swapping the groups negates each
replicate only when the same index draws are reused per group, which a
single shared stream does not guarantee; the predicate-level invariance
is what holds unconditionally.) -/
theorem verdict_neg_invariant (reps : List ℚ) (h : reps.length = BOOTSTRAP_SAMPLES) :
    verdict (reps.map fun a => -a) = verdict reps := by
  have hs : (sortValues reps).length = BOOTSTRAP_SAMPLES := by
    rw [← h]
    exact (List.perm_insertionSort _ reps).length_eq
  have hs2 : (sortValues (reps.map fun a => -a)).length = BOOTSTRAP_SAMPLES := by
    rw [sortValues_map_neg, List.length_reverse, List.length_map, hs]
  unfold verdict
  rw [getInterval_len_10000 _ hs2, getInterval_len_10000 _ hs]
  rw [sortValues_map_neg]
  rw [getD_reverse_map_neg _ _ (by rw [hs]; norm_num [BOOTSTRAP_SAMPLES]),
    getD_reverse_map_neg _ _ (by rw [hs]; norm_num [BOOTSTRAP_SAMPLES])]
  rw [hs]
  rw [show BOOTSTRAP_SAMPLES - 1 - 49 = 9950 from rfl,
    show BOOTSTRAP_SAMPLES - 1 - 9950 = 49 from rfl]
  rw [Option.map_some', Option.map_some']
  dsimp only
  congr 1
  rw [decide_eq_decide]
  constructor
  · rintro (h1 | h2)
    · exact Or.inr (neg_pos.mp h1)
    · exact Or.inl (neg_lt_zero.mp h2)
  · rintro (h1 | h2)
    · exact Or.inr (neg_lt_zero.mpr h1)
    · exact Or.inl (neg_pos.mpr h2)

/-- Witness for the amended C9: the verdict on `replicate 10000 (-1)`
(the negation of `replicate 10000 1`) equals the verdict on
`replicate 10000 1`. -/
theorem verdict_neg_invariant_witness :
    (List.replicate BOOTSTRAP_SAMPLES (1 : ℚ)).length = BOOTSTRAP_SAMPLES ∧
      verdict ((List.replicate BOOTSTRAP_SAMPLES (1 : ℚ)).map fun a => -a)
        = verdict (List.replicate BOOTSTRAP_SAMPLES (1 : ℚ)) :=
  ⟨by rw [List.length_replicate],
    verdict_neg_invariant _ (by rw [List.length_replicate])⟩

/-- C10 counterexample: the pull operation does not succeed whenever at
least `n` observations remain — for `n = 0` the assert `n != 0` fails
even though `0 ≤ input.size()`. -/
theorem readSamples_zero_requested_fails :
    readSamples [(1 : ℚ)] 0 = none ∧ 0 ≤ ([(1 : ℚ)]).length := by
  constructor
  · rw [readSamples, if_neg]
    simp
  · simp

/-- C10 (amended): for every requested count `n > 0` the pull operation
removes and returns the next `n` observations in original arrival order,
leaving the remaining backlog intact and in order, and it succeeds iff
at least `n` observations remain; for `n = 0` it fails unconditionally
(the assert also requires `n != 0`). -/
theorem readSamples_take_drop (input : List ℚ) (n : ℕ) (hn : 0 < n) :
    (n ≤ input.length →
      readSamples input n = some (input.take n, input.drop n) ∧
        input.take n ++ input.drop n = input ∧ (input.take n).length = n) ∧
      (input.length < n → readSamples input n = none) ∧
      readSamples input 0 = none := by
  refine ⟨fun h => ⟨?_, ?_, ?_⟩, fun h => ?_, ?_⟩
  · rw [readSamples, if_pos ⟨h, by omega⟩]
  · exact List.take_append_drop n input
  · rw [List.length_take]
    omega
  · rw [readSamples, if_neg]
    rintro ⟨h1, _⟩
    omega
  · rw [readSamples, if_neg]
    simp

/-- Witness for the amended C10: pulling 2 observations from the backlog
`[1, 2, 3]` returns `[1, 2]` and leaves `[3]`. -/
theorem readSamples_take_drop_witness :
    (0 < 2) ∧ readSamples [1, 2, 3] 2 = some ([1, 2], [3]) := by
  have h := ((readSamples_take_drop [1, 2, 3] 2 (by norm_num)).1 (by simp)).1
  refine ⟨by norm_num, ?_⟩
  rw [h]
  rfl

/-- C1 (failing input): with both backlogs holding exactly
`MAX_SAMPLE_SIZE = 60` constant observations — an input on which the
Hypothesis Tester never rejects (`rejected_replicate_self`) — the run
does NOT reach the `exhausted` state with exit status 0: the loop
iteration at `current = 60` passes the test and then pulls from an
already-empty backlog, so the `readSamples` assert fails and the process
aborts.  The loop `current <= MAX_SAMPLE_SIZE` consumes
`INITAL_SAMPLE_SIZE + 57 = 61` observations per group while the
precondition assert only demands 60. -/
theorem mainRun_exact_budget_aborts :
    mainRun gZero (List.replicate 60 (10 : ℚ)) (List.replicate 60 (10 : ℚ))
        = ⟨.loopReadFail, List.replicate 60 (10 : ℚ), List.replicate 60 (10 : ℚ)⟩ ∧
      exitCode Outcome.loopReadFail = none := by
  constructor
  · rw [mainRun_replicate gZero 10 60 60 (by norm_num) (by norm_num)]
    rw [if_neg (by omega), if_pos (by omega)]
  · rfl

/-- C2 (failing input): with a reference backlog of 60 observations and an
offset (candidate) backlog of only 10 — both groups constant — the
precondition assert still passes, because it reads only the reference
backlog's size, and the run proceeds into the sampling loop (the
`loopReadFail` outcome arises strictly after a `rejected` invocation in
its iteration), aborting only later on the mid-loop `readSamples` assert.
The claimed "abort before any hypothesis testing begins" does not
happen for a too-small candidate backlog. -/
theorem mainPrecond_ignores_offset_backlog :
    mainPrecond (List.replicate 60 (10 : ℚ)) = true ∧
      mainRun gZero (List.replicate 60 (10 : ℚ)) (List.replicate 10 (10 : ℚ))
        = ⟨.loopReadFail, List.replicate 11 (10 : ℚ), List.replicate 10 (10 : ℚ)⟩ := by
  constructor
  · rw [mainPrecond]
    simp [INITAL_SAMPLE_SIZE, MAX_SAMPLE_SIZE]
  · rw [mainRun_replicate gZero 10 60 10 (by norm_num) (by norm_num)]
    rw [if_neg (by omega), if_neg (by omega)]

/-- C3 (failing input): with both backlogs holding 61 constant
observations (the precondition assert demands only `≥ 60`), the run
completes with outcome `exhausted` and both groups at 61 elements —
one more than `MAX_SAMPLE_SIZE = 60`.  Since groups only ever grow, the
final length 61 shows the growth step at `current = 60` pushed each
group past the claimed bound. -/
theorem mainRun_groups_grow_past_max :
    (mainRun gZero (List.replicate 61 (10 : ℚ)) (List.replicate 61 (10 : ℚ))).x.length = 61 ∧
      (mainRun gZero (List.replicate 61 (10 : ℚ)) (List.replicate 61 (10 : ℚ))).outcome
        = Outcome.exhausted ∧
      MAX_SAMPLE_SIZE < 61 := by
  have h := mainRun_replicate gZero 10 61 61 (by norm_num) (by norm_num)
  rw [if_pos (by omega)] at h
  rw [h]
  refine ⟨by rw [List.length_replicate], rfl, by norm_num [MAX_SAMPLE_SIZE]⟩
